import Mathlib

/-
Verification of the Rockbox subharmonic synthesizer
(src/lib/rbcodec/dsp/subharmonic.c).

The C file is embedded shallowly below.  Machine integers are modelled as
unbounded `Int` together with explicit two's-complement wrapping (`wrap32`,
`wrap64`) exactly at the operations where the C program's `int32_t`/`int64_t`
arithmetic can overflow, C truncating division `/` is `Int.tdiv`, and the
arithmetic right shift `>> k` on a (possibly negative) signed value is
`Int.fdiv _ (2 ^ k)`.  Operations whose C operands are 32-bit values and whose
result provably fits in 64 bits (for example the product of two `int32_t`
values widened to `int64_t`) are embedded without a wrap, since no overflow is
possible there.
-/

namespace Subharmonic

/-- Two's-complement wrap of an unbounded integer to the signed 64-bit range,
modelling overflow of C `int64_t` arithmetic. -/
def wrap64 (x : Int) : Int := (x + 2 ^ 63) % 2 ^ 64 - 2 ^ 63

/-- Two's-complement wrap of an unbounded integer to the signed 32-bit range,
modelling C `int` overflow and the narrowing cast `(int32_t)`. -/
def wrap32 (x : Int) : Int := (x + 2 ^ 31) % 2 ^ 32 - 2 ^ 31

def INT32_MAX : Int := 2 ^ 31 - 1
def INT32_MIN : Int := -(2 ^ 31)

/-- `x` is representable as an `int32_t`. -/
abbrev in_i32 (x : Int) : Prop := INT32_MIN ≤ x ∧ x ≤ INT32_MAX

/-- `const int32_t TWO_PI_Q16 = (int32_t)(6.283185307179586 * (1<<16));`
The double product is 411774.83229…, truncated toward zero by the cast. -/
def TWO_PI_Q16 : Int := 411774

def GAIN_TABLE_MIN_DB : Int := -24
def GAIN_TABLE_MAX_DB : Int := 12

/-- `static const int32_t gain_table_q16[...]`, -24 dB … +12 dB in 1-dB steps. -/
def gain_table_q16 : List Int :=
  [4145, 4655, 5226, 5867, 6588, 7399, 8310, 9336, 10488, 11782,
   13234, 14865, 16700, 18766, 21095, 23721, 26686, 30033, 33808, 38065,
   42862, 48265, 54342, 61172, 65536, 73690, 82708, 92713, 103957, 116607,
   130858, 146928, 165060, 185533, 208661, 234804, 264367]

/-- The four per-channel memory cells (one array slot of each of
`prev_crossover_out`, `subharmonic_hold_q16`, `prev_antialias_out_q16`,
`toggle_state`).  The toggle is a C `int` that is only ever tested against 0
and XORed with 1, so its 32-bit pattern is carried as a `Nat`. -/
structure ChState where
  prev_crossover_out : Int
  subharmonic_hold_q16 : Int
  prev_antialias_out_q16 : Int
  toggle_state : Nat
deriving Repr, DecidableEq

/-- The fields of `global_settings` that subharmonic.c reads. -/
structure GlobalSettings where
  subharmonic_enable : Bool
  subharmonic_crossover : Int
  subharmonic_level : Int
  subharmonic_pregain : Bool
deriving Repr, DecidableEq

/-- The whole file-scope mutable state of subharmonic.c, plus the
`global_settings` fields it reads (owned by the external settings system). -/
structure Globals where
  settings : GlobalSettings
  samplerate : Int
  alpha_q16 : Int
  gain_q16 : Int
  pregain : Bool
  ch0 : ChState
  ch1 : ChState
deriving Repr, DecidableEq

/-- `flush_state`: zero all eight per-channel memory cells. -/
def flush_state (g : Globals) : Globals :=
  { g with ch0 := ⟨0, 0, 0, 0⟩, ch1 := ⟨0, 0, 0, 0⟩ }

/-- The crossover-coefficient computation, textually identical in `recompute`
(lines 98-103) and in `sound_set_subharmonic_crossover` (lines 217-221):

    int64_t w_q16 = (int64_t)fc * TWO_PI_Q16;
    int64_t den = w_q16 + ((int64_t)samplerate << 16);
    if (den <= 0) den = 1;
    alpha_q16 = (int32_t)((w_q16<<16) / den);

`fc` and `samplerate` are `int` values, so `w_q16` (≤ 2^50) and `den` (≤ 2^51)
cannot overflow `int64_t`; `w_q16<<16` can, hence the `wrap64` there. -/
def crossover_alpha (fc samplerate : Int) : Int :=
  let w_q16 : Int := fc * TWO_PI_Q16
  let den0 : Int := w_q16 + samplerate * 65536
  let den : Int := if den0 ≤ 0 then 1 else den0
  wrap32 ((wrap64 (w_q16 * 65536)).tdiv den)

/-- The gain computation, textually identical in `recompute` (lines 106-109)
and in `sound_set_subharmonic_level` (lines 227-229): clamp the decibel level
to the table range and index the table. -/
def gain_lookup (db : Int) : Int :=
  let db1 : Int := if db < GAIN_TABLE_MIN_DB then GAIN_TABLE_MIN_DB else db
  let db2 : Int := if db1 > GAIN_TABLE_MAX_DB then GAIN_TABLE_MAX_DB else db1
  gain_table_q16.getD (db2 - GAIN_TABLE_MIN_DB).toNat 0

/-- `recompute`: refresh alpha, gain and pregain from `global_settings`
and the cached samplerate. -/
def recompute (g : Globals) : Globals :=
  { g with
    alpha_q16 := crossover_alpha g.settings.subharmonic_crossover g.samplerate
    gain_q16 := gain_lookup g.settings.subharmonic_level
    pregain := g.settings.subharmonic_pregain }

/-- `sound_set_subharmonic_crossover(int hz)`: recompute only `alpha_q16`
from `hz` and the cached samplerate.  Note it does not write
`global_settings.subharmonic_crossover`. -/
def sound_set_subharmonic_crossover (g : Globals) (hz : Int) : Globals :=
  { g with alpha_q16 := crossover_alpha hz g.samplerate }

/-- `sound_set_subharmonic_level(int db)`. -/
def sound_set_subharmonic_level (g : Globals) (db : Int) : Globals :=
  { g with gain_q16 := gain_lookup db }

/-- `sound_set_subharmonic_pregain_enable(bool on)`. -/
def sound_set_subharmonic_pregain_enable (g : Globals) (b : Bool) : Globals :=
  { g with pregain := b }

/-- One one-pole low-pass step (lines 168-169 and 180-181):

    (int32_t)((((int64_t)alpha * x) + (((int64_t)((1<<16)-alpha)) * prev)) >> 16)

`(1<<16)-alpha` is computed in 32-bit `int` (hence `wrap32`); the two 64-bit
products of 32-bit values cannot overflow individually but their sum can reach
2^63 in magnitude (hence `wrap64`); `>> 16` is an arithmetic shift (`fdiv`);
the outer cast narrows to 32 bits (`wrap32`). -/
def lowpass_step (alpha x prev : Int) : Int :=
  wrap32 ((wrap64 (alpha * x + wrap32 (65536 - alpha) * prev)).fdiv 65536)

/-- The two clipping tests on `mixer_out` (lines 194-195). -/
def clip32 (mixer_out : Int) : Int :=
  let m1 : Int := if mixer_out > INT32_MAX then INT32_MAX else mixer_out
  let m2 : Int := if m1 < INT32_MIN then INT32_MIN else m1
  m2

/-- The mixer stage (lines 184-198): mix the original sample with the
gain-scaled anti-aliased subharmonic, clip to `int32_t` range, and narrow.
All quantities named here are `int32_t` values in the C program, so the
`int64_t` intermediate `mixer_out` (at most 2^62 / 2^16 + 2^31 in magnitude)
cannot overflow, and after clipping the narrowing cast is exact. -/
def mixer (pregain : Bool) (gain_q16 sample antialias_out : Int) : Int :=
  let mixer_out : Int :=
    if pregain then
      sample.fdiv 2 + (gain_q16 * antialias_out).fdiv 65536
    else
      sample + (gain_q16 * antialias_out).fdiv 65536
  clip32 mixer_out

/-- The body of the per-sample, per-channel loop (lines 162-198): crossover
filter, sample-and-hold toggle, anti-alias filter, mix-and-clip.  Returns the
updated channel state and the value written back into the buffer. -/
def chan_step (alpha_q16 gain_q16 : Int) (pregain : Bool) (st : ChState)
    (sample : Int) : ChState × Int :=
  let crossover_out := lowpass_step alpha_q16 sample st.prev_crossover_out
  let hold := if st.toggle_state == 0 then crossover_out else st.subharmonic_hold_q16
  let toggle := st.toggle_state ^^^ 1
  let subharmonic_out := hold
  let antialias_out := lowpass_step alpha_q16 subharmonic_out st.prev_antialias_out_q16
  (⟨crossover_out, hold, antialias_out, toggle⟩,
   mixer pregain gain_q16 sample antialias_out)

/-- Run `chan_step` over all samples of one channel.  The C loop interleaves
the (at most two) channels inside one pass over the sample index, but each
channel reads and writes only its own state slots, so processing the channels
one after the other computes the same states and the same output samples. -/
def chan_process (alpha gain : Int) (pregain : Bool) :
    ChState → List Int → ChState × List Int
  | st, [] => (st, [])
  | st, x :: xs =>
    let r := chan_step alpha gain pregain st x
    let rest := chan_process alpha gain pregain r.1 xs
    (rest.1, r.2 :: rest.2)

/-- The buffer fields `process` touches: the channel count from
`buf->format.num_channels` and the first two sample arrays `buf->p32[0/1]`
(of length `remcount`). -/
structure DspBuffer where
  num_channels : Nat
  ch0 : List Int
  ch1 : List Int
deriving Repr, DecidableEq

/-- `process` (lines 145-201): return unchanged if the enable setting is off;
otherwise run the three-stage pipeline over every sample of each of the first
`min(num_channels, 2)` channels, in place. -/
def process (g : Globals) (buf : DspBuffer) : Globals × DspBuffer :=
  if !g.settings.subharmonic_enable then (g, buf)
  else if buf.num_channels = 0 then (g, buf)
  else if buf.num_channels = 1 then
    let r0 := chan_process g.alpha_q16 g.gain_q16 g.pregain g.ch0 buf.ch0
    ({ g with ch0 := r0.1 }, { buf with ch0 := r0.2 })
  else
    let r0 := chan_process g.alpha_q16 g.gain_q16 g.pregain g.ch0 buf.ch0
    let r1 := chan_process g.alpha_q16 g.gain_q16 g.pregain g.ch1 buf.ch1
    ({ g with ch0 := r0.1, ch1 := r1.1 },
     { buf with ch0 := r0.2, ch1 := r1.2 })

/-- The lifecycle codes dispatched by `configure`. -/
inductive DspSetting where
  | DSP_PROC_INIT
  | DSP_PROC_CLOSE
  | DSP_FLUSH
  | DSP_SET_OUT_FREQUENCY
  | DSP_PROC_NEW_FORMAT
  | DSP_OTHER
deriving Repr, DecidableEq

/-- Return code accepted by the host for a format change; its concrete value
lives in the host framework's headers and is irrelevant to the claims. -/
def PROC_NEW_FORMAT_OK : Int := 1

/-- `configure` (lines 240-284).  `process_set` models whether
`this->process` is set; `output_frequency` models the host's
`dsp_get_output_frequency(dsp)`.  Returns the new globals, the new
`process_set`, and the `intptr_t` return value. -/
def configure (g : Globals) (process_set : Bool) (setting : DspSetting)
    (output_frequency : Int) : Globals × Bool × Int :=
  match setting with
  | .DSP_PROC_INIT =>
    (recompute { flush_state g with samplerate := output_frequency }, true, 0)
  | .DSP_PROC_CLOSE => (flush_state g, false, 0)
  | .DSP_FLUSH => (flush_state g, process_set, 0)
  | .DSP_SET_OUT_FREQUENCY =>
    (recompute { g with samplerate := output_frequency }, process_set, 0)
  | .DSP_PROC_NEW_FORMAT => (g, process_set, PROC_NEW_FORMAT_OK)
  | .DSP_OTHER => (g, process_set, 0)

/-- The sample-and-hold stage in isolation (lines 174-176): update the held
register when the toggle is 0, flip the toggle, output the held register. -/
def sh_step (hold : Int) (tog : Nat) (x : Int) : Int × Nat :=
  let hold1 := if tog == 0 then x else hold
  (hold1, tog ^^^ 1)

/-- The sample-and-hold stage run over a stream: the list of its outputs. -/
def sh_run (hold : Int) (tog : Nat) : List Int → List Int
  | [] => []
  | x :: xs =>
    let r := sh_step hold tog x
    r.1 :: sh_run r.1 r.2 xs

/-- The spec's description of the stage's output from a reset toggle: each
input at an even position is emitted twice (the odd-position input of the
pair is dropped), so the output holds each value for exactly two samples. -/
def hold_pairs : List Int → List Int
  | [] => []
  | [x] => [x]
  | x :: _ :: xs => x :: x :: hold_pairs xs

/-! ### Helper lemmas -/

theorem wrap64_id {x : Int} (h1 : -(2 ^ 63) ≤ x) (h2 : x < 2 ^ 63) : wrap64 x = x := by
  unfold wrap64
  rw [Int.emod_eq_of_lt (by norm_num; linarith) (by norm_num at *; linarith)]
  ring

theorem wrap32_id {x : Int} (h1 : -(2 ^ 31) ≤ x) (h2 : x < 2 ^ 31) : wrap32 x = x := by
  unfold wrap32
  rw [Int.emod_eq_of_lt (by norm_num; linarith) (by norm_num at *; linarith)]
  ring

/-- Floor-division monotonicity through cross-multiplication. -/
theorem ediv_le_ediv_cross {a b c d : Int} (ha : 0 ≤ a) (hb : 0 < b) (hd : 0 < d)
    (h : a * d ≤ c * b) : a / b ≤ c / d := by
  rw [Int.le_ediv_iff_mul_le hd]
  have h1 : a / b * d * b ≤ a * d := by
    calc a / b * d * b = a / b * b * d := by ring
      _ ≤ a * d := mul_le_mul_of_nonneg_right (Int.ediv_mul_le a (ne_of_gt hb)) (le_of_lt hd)
  have h2 : a / b * d ≤ a * d / b := by
    rw [Int.le_ediv_iff_mul_le hb]; exact h1
  calc a / b * d ≤ a * d / b := h2
    _ ≤ c * b / b := Int.ediv_le_ediv hb h
    _ = c := Int.mul_ediv_cancel c (ne_of_gt hb)

theorem den_pos {fc s : Int} (h0 : 0 ≤ fc) (h2 : 0 < s) :
    0 < fc * 411774 + s * 65536 := by
  have hw : 0 ≤ fc * 411774 := mul_nonneg h0 (by norm_num)
  have hs : 1 * 65536 ≤ s * 65536 := mul_le_mul_of_nonneg_right h2 (by norm_num)
  linarith

/-- In the no-overflow region the coefficient computation is an exact
integer floor division: no intermediate wraps and no clamped denominator. -/
theorem crossover_alpha_eq {fc s : Int} (h0 : 0 ≤ fc) (h1 : fc ≤ 341783328)
    (h2 : 0 < s) (h3 : s ≤ INT32_MAX) :
    crossover_alpha fc s = fc * 411774 * 65536 / (fc * 411774 + s * 65536) := by
  simp only [crossover_alpha, TWO_PI_Q16]
  have hden := den_pos h0 h2
  rw [if_neg (not_le.mpr hden)]
  have hnum0 : 0 ≤ fc * 411774 * 65536 :=
    mul_nonneg (mul_nonneg h0 (by norm_num)) (by norm_num)
  have hnum1 : fc * 411774 * 65536 < 2 ^ 63 := by
    have hb : fc * 411774 * 65536 ≤ 341783328 * 411774 * 65536 :=
      mul_le_mul_of_nonneg_right
        (mul_le_mul_of_nonneg_right h1 (by norm_num)) (by norm_num)
    calc fc * 411774 * 65536 ≤ 341783328 * 411774 * 65536 := hb
      _ < 2 ^ 63 := by norm_num
  rw [wrap64_id (by linarith) hnum1]
  rw [Int.tdiv_eq_ediv hnum0 (le_of_lt hden)]
  have hq0 : 0 ≤ fc * 411774 * 65536 / (fc * 411774 + s * 65536) :=
    Int.ediv_nonneg hnum0 (le_of_lt hden)
  have hq1 : fc * 411774 * 65536 / (fc * 411774 + s * 65536) < 65536 := by
    rw [Int.ediv_lt_iff_lt_mul hden]
    have hs1 : 1 * 65536 ≤ s * 65536 := mul_le_mul_of_nonneg_right h2 (by norm_num)
    nlinarith
  exact wrap32_id (by linarith) (by linarith)

/-- In the no-overflow region the coefficient is a valid Q16 fraction. -/
theorem crossover_alpha_range {fc s : Int} (h0 : 0 ≤ fc) (h1 : fc ≤ 341783328)
    (h2 : 0 < s) (h3 : s ≤ INT32_MAX) :
    0 ≤ crossover_alpha fc s ∧ crossover_alpha fc s < 65536 := by
  rw [crossover_alpha_eq h0 h1 h2 h3]
  have hden := den_pos h0 h2
  have hnum0 : 0 ≤ fc * 411774 * 65536 :=
    mul_nonneg (mul_nonneg h0 (by norm_num)) (by norm_num)
  refine ⟨Int.ediv_nonneg hnum0 (le_of_lt hden), ?_⟩
  rw [Int.ediv_lt_iff_lt_mul hden]
  have hs1 : 1 * 65536 ≤ s * 65536 := mul_le_mul_of_nonneg_right h2 (by norm_num)
  nlinarith

/-- Under a valid Q16 coefficient and 32-bit-ranged operands, the one-pole
step computes the exact floor of the convex combination: none of the wraps
fire, and the result is again in 32-bit range. -/
theorem lowpass_step_spec {alpha x prev : Int} (h0 : 0 ≤ alpha) (h1 : alpha ≤ 65536)
    (hx : in_i32 x) (hp : in_i32 prev) :
    lowpass_step alpha x prev = (alpha * x + (65536 - alpha) * prev).fdiv 65536 ∧
    in_i32 (lowpass_step alpha x prev) := by
  obtain ⟨hx1, hx2⟩ := hx
  obtain ⟨hp1, hp2⟩ := hp
  simp only [INT32_MIN, INT32_MAX] at hx1 hx2 hp1 hp2
  norm_num at hx1 hx2 hp1 hp2
  have ha' : 0 ≤ 65536 - alpha := by linarith
  have lo : 65536 * (-2147483648) ≤ alpha * x + (65536 - alpha) * prev := by
    have l1 : alpha * (-2147483648) ≤ alpha * x := mul_le_mul_of_nonneg_left hx1 h0
    have l2 : (65536 - alpha) * (-2147483648) ≤ (65536 - alpha) * prev :=
      mul_le_mul_of_nonneg_left hp1 ha'
    nlinarith
  have hi : alpha * x + (65536 - alpha) * prev ≤ 65536 * 2147483647 := by
    have l1 : alpha * x ≤ alpha * 2147483647 := mul_le_mul_of_nonneg_left hx2 h0
    have l2 : (65536 - alpha) * prev ≤ (65536 - alpha) * 2147483647 :=
      mul_le_mul_of_nonneg_left hp2 ha'
    nlinarith
  have hw32 : wrap32 (65536 - alpha) = 65536 - alpha :=
    wrap32_id (by norm_num; linarith) (by norm_num; linarith)
  have hw64 : wrap64 (alpha * x + (65536 - alpha) * prev) =
      alpha * x + (65536 - alpha) * prev :=
    wrap64_id (by norm_num; linarith) (by norm_num; linarith)
  have hfd : (alpha * x + (65536 - alpha) * prev).fdiv 65536 =
      (alpha * x + (65536 - alpha) * prev) / 65536 :=
    Int.fdiv_eq_ediv _ (by norm_num)
  have hq1 : -2147483648 ≤ (alpha * x + (65536 - alpha) * prev) / 65536 := by
    rw [Int.le_ediv_iff_mul_le (by norm_num : (0:Int) < 65536)]
    linarith
  have hq2 : (alpha * x + (65536 - alpha) * prev) / 65536 ≤ 2147483647 := by
    rw [← Int.lt_add_one_iff, Int.ediv_lt_iff_lt_mul (by norm_num : (0:Int) < 65536)]
    linarith
  have hstep : lowpass_step alpha x prev =
      (alpha * x + (65536 - alpha) * prev).fdiv 65536 := by
    unfold lowpass_step
    rw [hw32, hw64, hfd]
    exact wrap32_id (by norm_num; linarith) (by norm_num; linarith)
  refine ⟨hstep, ?_⟩
  rw [hstep, hfd]
  unfold in_i32 INT32_MIN INT32_MAX
  norm_num
  exact ⟨hq1, hq2⟩

/-- One pipeline step keeps all three stored samples in 32-bit range. -/
theorem chan_step_in_range {alpha gain : Int} {pg : Bool} {st : ChState} {x : Int}
    (h0 : 0 ≤ alpha) (h1 : alpha ≤ 65536)
    (hc : in_i32 st.prev_crossover_out) (hh : in_i32 st.subharmonic_hold_q16)
    (ha : in_i32 st.prev_antialias_out_q16) (hx : in_i32 x) :
    in_i32 (chan_step alpha gain pg st x).1.prev_crossover_out ∧
    in_i32 (chan_step alpha gain pg st x).1.subharmonic_hold_q16 ∧
    in_i32 (chan_step alpha gain pg st x).1.prev_antialias_out_q16 := by
  have hco := (lowpass_step_spec h0 h1 hx hc).2
  have hhold : in_i32 (if st.toggle_state == 0 then
      lowpass_step alpha x st.prev_crossover_out else st.subharmonic_hold_q16) := by
    split
    · exact hco
    · exact hh
  have haa := (lowpass_step_spec h0 h1 hhold ha).2
  exact ⟨hco, hhold, haa⟩

/-- Processing any sample list keeps all three stored samples in range. -/
theorem chan_process_in_range {alpha gain : Int} {pg : Bool} (h0 : 0 ≤ alpha)
    (h1 : alpha ≤ 65536) :
    ∀ (xs : List Int) (st : ChState),
      in_i32 st.prev_crossover_out → in_i32 st.subharmonic_hold_q16 →
      in_i32 st.prev_antialias_out_q16 → (∀ x ∈ xs, in_i32 x) →
      in_i32 (chan_process alpha gain pg st xs).1.prev_crossover_out ∧
      in_i32 (chan_process alpha gain pg st xs).1.subharmonic_hold_q16 ∧
      in_i32 (chan_process alpha gain pg st xs).1.prev_antialias_out_q16 := by
  intro xs
  induction xs with
  | nil => intro st hc hh ha _; exact ⟨hc, hh, ha⟩
  | cons x xs ih =>
    intro st hc hh ha hmem
    have hx : in_i32 x := hmem x (List.mem_cons_self x xs)
    have hstep := @chan_step_in_range alpha gain pg st x h0 h1 hc hh ha hx
    have := ih (chan_step alpha gain pg st x).1 hstep.1 hstep.2.1 hstep.2.2
      (fun y hy => hmem y (List.mem_cons_of_mem x hy))
    simpa [chan_process] using this

/-- From a reset toggle, the sample-and-hold output stream duplicates each
even-position input. -/
theorem sh_run_hold_pairs : ∀ (h : Int) (xs : List Int), sh_run h 0 xs = hold_pairs xs := by
  intro h xs
  induction xs using hold_pairs.induct generalizing h with
  | case1 => rfl
  | case2 x => rfl
  | case3 x y xs ih => simp [sh_run, sh_step, hold_pairs, ih]

/-- The clipped `mixer_out` always lies in the `int32_t` range. -/
theorem clip32_in_i32 (m : Int) : in_i32 (clip32 m) := by
  unfold clip32 in_i32 INT32_MIN INT32_MAX
  norm_num
  split_ifs <;> omega

/-! ### Claims -/

/-- C1: for every 32-bit original sample, every 32-bit anti-alias-filtered
subharmonic sample, every gain up to the table maximum (264367, the +12 dB
entry), and either pregain setting, the mixer's value written back into the
buffer lies within [INT32_MIN, INT32_MAX]; with original = INT32_MAX,
gain = table maximum, anti-alias output = INT32_MAX, pregain disabled, the
written output is exactly INT32_MAX (clamped, not wrapped). -/
theorem C1_mixer_saturates :
    (∀ (sample antialias gain : Int) (pg : Bool),
        in_i32 sample → in_i32 antialias → 0 ≤ gain → gain ≤ 264367 →
        in_i32 (mixer pg gain sample antialias)) ∧
    gain_lookup GAIN_TABLE_MAX_DB = 264367 ∧
    mixer false 264367 INT32_MAX INT32_MAX = INT32_MAX := by
  refine ⟨?_, by decide, by decide⟩
  intro sample antialias gain pg _ _ _ _
  unfold mixer
  exact clip32_in_i32 _

theorem C1_witness : in_i32 (mixer true 65536 1000 (-1000)) :=
  C1_mixer_saturates.1 1000 (-1000) 65536 true (by decide) (by decide)
    (by decide) (by decide)

/-- C3: in the per-sample pipeline, the held register and toggle evolve
exactly as the isolated sample-and-hold stage `sh_step` applied to the
crossover-filtered input — the toggle flips unconditionally on every sample
— and from a freshly reset toggle (0, as left by `flush_state`) the stage's
output stream duplicates each even-position input, i.e. its output stays the
same value for exactly two consecutive input samples. -/
theorem C3_sample_and_hold :
    (∀ (alpha gain : Int) (pg : Bool) (st : ChState) (x : Int),
        ((chan_step alpha gain pg st x).1.subharmonic_hold_q16,
         (chan_step alpha gain pg st x).1.toggle_state) =
          sh_step st.subharmonic_hold_q16 st.toggle_state
            (lowpass_step alpha x st.prev_crossover_out) ∧
        (chan_step alpha gain pg st x).1.toggle_state = st.toggle_state ^^^ 1) ∧
    (∀ (g : Globals), (flush_state g).ch0.toggle_state = 0 ∧
        (flush_state g).ch1.toggle_state = 0) ∧
    (∀ (h : Int) (xs : List Int), sh_run h 0 xs = hold_pairs xs) :=
  ⟨fun _ _ _ _ _ => ⟨rfl, rfl⟩, fun _ => ⟨rfl, rfl⟩, sh_run_hold_pairs⟩

/-- C4: the DSP_FLUSH lifecycle event zeroes all four per-channel state
fields of both channels and leaves alpha_q16, gain_q16, pregain and the
cached sample rate unchanged. -/
theorem C4_flush_resets_channels_only :
    ∀ (g : Globals) (ps : Bool) (freq : Int),
      (configure g ps .DSP_FLUSH freq).1.ch0 = ⟨0, 0, 0, 0⟩ ∧
      (configure g ps .DSP_FLUSH freq).1.ch1 = ⟨0, 0, 0, 0⟩ ∧
      (configure g ps .DSP_FLUSH freq).1.alpha_q16 = g.alpha_q16 ∧
      (configure g ps .DSP_FLUSH freq).1.gain_q16 = g.gain_q16 ∧
      (configure g ps .DSP_FLUSH freq).1.pregain = g.pregain ∧
      (configure g ps .DSP_FLUSH freq).1.samplerate = g.samplerate :=
  fun _ _ _ => ⟨rfl, rfl, rfl, rfl, rfl, rfl⟩

/-- C8: the DSP_SET_OUT_FREQUENCY lifecycle event captures the new sample
rate, recomputes alpha_q16 (from the stored cutoff and the new rate),
gain_q16 and pregain, and leaves both channels' state unchanged. -/
theorem C8_out_frequency_recomputes :
    ∀ (g : Globals) (ps : Bool) (freq : Int),
      (configure g ps .DSP_SET_OUT_FREQUENCY freq).1.samplerate = freq ∧
      (configure g ps .DSP_SET_OUT_FREQUENCY freq).1.alpha_q16 =
        crossover_alpha g.settings.subharmonic_crossover freq ∧
      (configure g ps .DSP_SET_OUT_FREQUENCY freq).1.gain_q16 =
        gain_lookup g.settings.subharmonic_level ∧
      (configure g ps .DSP_SET_OUT_FREQUENCY freq).1.pregain =
        g.settings.subharmonic_pregain ∧
      (configure g ps .DSP_SET_OUT_FREQUENCY freq).1.ch0 = g.ch0 ∧
      (configure g ps .DSP_SET_OUT_FREQUENCY freq).1.ch1 = g.ch1 :=
  fun _ _ _ => ⟨rfl, rfl, rfl, rfl, rfl, rfl⟩

/-- C9: when the enable setting is off, `process` is a no-op: the buffer and
all filter state are returned unchanged. -/
theorem C9_disabled_is_noop :
    ∀ (g : Globals) (buf : DspBuffer),
      g.settings.subharmonic_enable = false → process g buf = (g, buf) := by
  intro g buf h
  simp [process, h]

theorem C9_witness :
    process ⟨⟨false, 100, 0, false⟩, 44100, 186, 65536, false, ⟨0, 0, 0, 0⟩, ⟨0, 0, 0, 0⟩⟩
        ⟨2, [1, 2, 3], [4, 5, 6]⟩ =
      (⟨⟨false, 100, 0, false⟩, 44100, 186, 65536, false, ⟨0, 0, 0, 0⟩, ⟨0, 0, 0, 0⟩⟩,
       ⟨2, [1, 2, 3], [4, 5, 6]⟩) :=
  C9_disabled_is_noop _ _ rfl

/-- C2 counterexample: with cutoff 341783329 (≥ 0) and sample rate 44100
(> 0) the 64-bit intermediate `w_q16 << 16` overflows and the stored
coefficient is negative, refuting 0 ≤ alpha_q16 < 2^16 as stated for every
non-negative cutoff. -/
theorem C2_counterexample :
    0 ≤ (341783329 : Int) ∧ 0 < (44100 : Int) ∧
    crossover_alpha 341783329 44100 = -65534 := by decide

/-- C2 (amended): for every cutoff in [0, 341783328] — the full range in
which `w_q16 << 16` fits in 64 bits — and every sample rate in
(0, INT32_MAX], the coefficient lies in [0, 2^16), both when computed by
`recompute` and when computed by `sound_set_subharmonic_crossover`. -/
theorem C2_alpha_in_unit_range :
    ∀ (g : Globals) (hz : Int),
      0 ≤ g.settings.subharmonic_crossover →
      g.settings.subharmonic_crossover ≤ 341783328 →
      0 ≤ hz → hz ≤ 341783328 →
      0 < g.samplerate → g.samplerate ≤ INT32_MAX →
      (0 ≤ (recompute g).alpha_q16 ∧ (recompute g).alpha_q16 < 65536) ∧
      (0 ≤ (sound_set_subharmonic_crossover g hz).alpha_q16 ∧
        (sound_set_subharmonic_crossover g hz).alpha_q16 < 65536) :=
  fun _ _ h1 h2 h3 h4 h5 h6 =>
    ⟨crossover_alpha_range h1 h2 h5 h6, crossover_alpha_range h3 h4 h5 h6⟩

theorem C2_witness :
    (0 ≤ (recompute ⟨⟨true, 20, 0, false⟩, 44100, 0, 0, false,
          ⟨0, 0, 0, 0⟩, ⟨0, 0, 0, 0⟩⟩).alpha_q16 ∧
      (recompute ⟨⟨true, 20, 0, false⟩, 44100, 0, 0, false,
          ⟨0, 0, 0, 0⟩, ⟨0, 0, 0, 0⟩⟩).alpha_q16 < 65536) ∧
    (0 ≤ (sound_set_subharmonic_crossover ⟨⟨true, 20, 0, false⟩, 44100, 0, 0, false,
          ⟨0, 0, 0, 0⟩, ⟨0, 0, 0, 0⟩⟩ 35).alpha_q16 ∧
      (sound_set_subharmonic_crossover ⟨⟨true, 20, 0, false⟩, 44100, 0, 0, false,
          ⟨0, 0, 0, 0⟩, ⟨0, 0, 0, 0⟩⟩ 35).alpha_q16 < 65536) :=
  C2_alpha_in_unit_range _ 35 (by decide) (by decide) (by decide) (by decide)
    (by decide) (by decide)

/-- C5 counterexample: at cutoff -7100 and sample rate 44100 the denominator
is negative, the substitution to 1 fires, and the stored coefficient is
2037907456 — far outside [0, 2^16), so not "near zero (minimal low-pass
effect)". -/
theorem C5_counterexample :
    (-7100 : Int) * TWO_PI_Q16 + 44100 * 65536 ≤ 0 ∧
    crossover_alpha (-7100) 44100 = 2037907456 ∧
    65536 ≤ crossover_alpha (-7100) 44100 := by decide

/-- C5 (amended): whenever the computed denominator ω + sampleRate·2^16 is
≤ 0, the computation substitutes 1 for the denominator — so no division by
zero occurs — and the resulting coefficient is the 32-bit truncation of the
wrapped 64-bit value ω·2^16, which need not be near zero. -/
theorem C5_degenerate_denominator :
    ∀ fc s : Int, fc * TWO_PI_Q16 + s * 65536 ≤ 0 →
      crossover_alpha fc s = wrap32 (wrap64 (fc * TWO_PI_Q16 * 65536)) := by
  intro fc s h
  simp only [crossover_alpha, TWO_PI_Q16] at *
  rw [if_pos h, Int.tdiv_one]

theorem C5_witness :
    (-7100 : Int) * TWO_PI_Q16 + 44100 * 65536 ≤ 0 ∧
    crossover_alpha (-7100) 44100 = wrap32 (wrap64 ((-7100) * TWO_PI_Q16 * 65536)) :=
  ⟨by decide, C5_degenerate_denominator (-7100) 44100 (by decide)⟩

/-- C6 counterexample: at the fixed positive sample rate 2147483647, cutoffs
1 and 2 yield the same coefficient (both 0), refuting strict monotonicity in
the cutoff under integer truncation. -/
theorem C6_counterexample :
    (0 : Int) < 2147483647 ∧ (1 : Int) < 2 ∧
    crossover_alpha 1 2147483647 = crossover_alpha 2 2147483647 := by decide

/-- C6 (amended): inside the no-overflow region (cutoffs in [0, 341783328],
sample rates in (0, INT32_MAX]), the coefficient is monotonically
non-decreasing in the cutoff at fixed sample rate and monotonically
non-increasing in the sample rate at fixed cutoff; strictness fails because
of floor truncation. -/
theorem C6_alpha_monotone :
    (∀ fc fc' s : Int, 0 ≤ fc → fc ≤ fc' → fc' ≤ 341783328 →
        0 < s → s ≤ INT32_MAX →
        crossover_alpha fc s ≤ crossover_alpha fc' s) ∧
    (∀ fc s s' : Int, 0 ≤ fc → fc ≤ 341783328 → 0 < s → s ≤ s' →
        s' ≤ INT32_MAX →
        crossover_alpha fc s' ≤ crossover_alpha fc s) := by
  constructor
  · intro fc fc' s hfc hle hub hs hsu
    rw [crossover_alpha_eq hfc (le_trans hle hub) hs hsu,
        crossover_alpha_eq (le_trans hfc hle) hub hs hsu]
    have hnum0 : 0 ≤ fc * 411774 * 65536 :=
      mul_nonneg (mul_nonneg hfc (by norm_num)) (by norm_num)
    refine ediv_le_ediv_cross hnum0 (den_pos hfc hs)
      (den_pos (le_trans hfc hle) hs) ?_
    have key : 0 ≤ (fc' - fc) * s * 1769804297797632 :=
      mul_nonneg (mul_nonneg (sub_nonneg.mpr hle) (le_of_lt hs)) (by norm_num)
    nlinarith [key]
  · intro fc s s' hfc hub hs hle hsu
    rw [crossover_alpha_eq hfc hub hs (le_trans hle hsu),
        crossover_alpha_eq hfc hub (lt_of_lt_of_le hs hle) hsu]
    have hnum0 : 0 ≤ fc * 411774 * 65536 :=
      mul_nonneg (mul_nonneg hfc (by norm_num)) (by norm_num)
    refine ediv_le_ediv_cross hnum0
      (den_pos hfc (lt_of_lt_of_le hs hle)) (den_pos hfc hs) ?_
    have key : 0 ≤ fc * 411774 * 65536 * ((s' - s) * 65536) :=
      mul_nonneg hnum0
        (mul_nonneg (sub_nonneg.mpr hle) (by norm_num))
    nlinarith [key]

theorem C6_witness :
    crossover_alpha 20 44100 ≤ crossover_alpha 30 44100 ∧
    crossover_alpha 20 48000 ≤ crossover_alpha 20 44100 :=
  ⟨C6_alpha_monotone.1 20 30 44100 (by decide) (by decide) (by decide)
      (by decide) (by decide),
   C6_alpha_monotone.2 20 44100 48000 (by decide) (by decide) (by decide)
      (by decide) (by decide)⟩

/-- C7 counterexample: the runtime setter does not store its argument in
`global_settings.subharmonic_crossover`, so after
`sound_set_subharmonic_crossover(200)` (with stored cutoff 100) followed by
DSP_SET_OUT_FREQUENCY at 48000, the active coefficient is derived from the
stored cutoff 100, not from hz = 200. -/
theorem C7_counterexample :
    (configure (sound_set_subharmonic_crossover
        ⟨⟨true, 100, 0, false⟩, 44100, 0, 0, false, ⟨0, 0, 0, 0⟩, ⟨0, 0, 0, 0⟩⟩ 200)
        true .DSP_SET_OUT_FREQUENCY 48000).1.alpha_q16 ≠
      crossover_alpha 200 48000 := by decide

/-- C7 (amended): after `sound_set_subharmonic_crossover(hz)` followed by an
observed DSP_SET_OUT_FREQUENCY, the active coefficient is recomputed from the
stored setting `global_settings.subharmonic_crossover` and the new sample
rate; it equals the coefficient derived from hz and the new rate exactly when
the stored setting equals hz (the setter itself does not store hz). -/
theorem C7_recompute_uses_stored_cutoff :
    ∀ (g : Globals) (hz : Int) (ps : Bool) (freq : Int),
      g.settings.subharmonic_crossover = hz →
      (configure (sound_set_subharmonic_crossover g hz) ps
          .DSP_SET_OUT_FREQUENCY freq).1.alpha_q16 = crossover_alpha hz freq := by
  intro g hz ps freq h
  subst h
  rfl

theorem C7_witness :
    (configure (sound_set_subharmonic_crossover
        ⟨⟨true, 100, 0, false⟩, 44100, 0, 0, false, ⟨0, 0, 0, 0⟩, ⟨0, 0, 0, 0⟩⟩ 100)
        true .DSP_SET_OUT_FREQUENCY 48000).1.alpha_q16 =
      crossover_alpha 100 48000 :=
  C7_recompute_uses_stored_cutoff _ 100 true 48000 rfl

/-- C10: with 0 ≤ alpha_q16 ≤ 2^16 and 32-bit-ranged operands, each one-pole
accumulation-and-shift yields a value in [INT32_MIN, INT32_MAX], the
narrowing cast preserves that value (`lowpass_step` equals the unwrapped
floor), and every stored crossover / held / anti-alias channel state stays in
32-bit range after processing any sample list. -/
theorem C10_lowpass_stays_in_i32 :
    (∀ alpha x prev : Int, 0 ≤ alpha → alpha ≤ 65536 → in_i32 x → in_i32 prev →
        in_i32 ((alpha * x + (65536 - alpha) * prev).fdiv 65536) ∧
        lowpass_step alpha x prev = (alpha * x + (65536 - alpha) * prev).fdiv 65536) ∧
    (∀ (alpha gain : Int) (pg : Bool) (st : ChState) (xs : List Int),
        0 ≤ alpha → alpha ≤ 65536 →
        in_i32 st.prev_crossover_out → in_i32 st.subharmonic_hold_q16 →
        in_i32 st.prev_antialias_out_q16 → (∀ x ∈ xs, in_i32 x) →
        in_i32 (chan_process alpha gain pg st xs).1.prev_crossover_out ∧
        in_i32 (chan_process alpha gain pg st xs).1.subharmonic_hold_q16 ∧
        in_i32 (chan_process alpha gain pg st xs).1.prev_antialias_out_q16) := by
  constructor
  · intro alpha x prev h0 h1 hx hp
    obtain ⟨heq, hrange⟩ := lowpass_step_spec h0 h1 hx hp
    exact ⟨heq ▸ hrange, heq⟩
  · intro alpha gain pg st xs h0 h1 hc hh ha hmem
    exact chan_process_in_range h0 h1 xs st hc hh ha hmem

theorem C10_witness :
    in_i32 ((32768 * 1000 + (65536 - 32768) * 500 : Int).fdiv 65536) ∧
    lowpass_step 32768 1000 500 =
      (32768 * 1000 + (65536 - 32768) * 500 : Int).fdiv 65536 :=
  C10_lowpass_stays_in_i32.1 32768 1000 500 (by decide) (by decide)
    (by decide) (by decide)

end Subharmonic
